import Mathlib

/-!
Verification of the cleaver repository's SQLite reference backend
(`src/cleaver/backend/memory.py`) together with spec-modelled parts of the
assignment engine that the repository's tests exercise but whose modules are
not present under src.

The backend is embedded shallowly: each SQLite table is a Lean list in
insertion order (SQLite `SELECT` without `ORDER BY` returns rowid order, and
this backend never deletes rows), and each Python method that executes SQL
becomes a pure state transition.  A method that can raise returns
`Option Err × DB`: the first component is `some e` when a statement raised
(the exception propagates out of the method, as the Python code installs no
handler), and the second component is the connection state afterwards — a
failed statement has no effect, while effects of earlier statements in the
same method call persist on the connection.

A point that matters below: the source creates the assignment table with
  CREATE TABLE IF NOT EXISTS i (identity TEXT PRIMAY KEY, ...)
The misspelling "PRIMAY" is not a constraint keyword, so SQLite absorbs
"TEXT PRIMAY KEY" into the column's type name and the table ends up with no
primary key at all; inserts into `i` therefore never conflict.  Tables `e`
(name TEXT PRIMARY KEY) and `v` (name TEXT PRIMARY KEY) do carry uniqueness
constraints, as do `p` and `c` (PRIMARY KEY (experiment_name, variant)).
-/

namespace Cleaver

/-- Exceptions the embedded backend can raise: `integrityError` models
sqlite3.IntegrityError (uniqueness violation), `typeError` a Python
TypeError, `nameError` a Python NameError. -/
inductive Err where
  | integrityError
  | typeError
  | nameError
deriving DecidableEq, Repr

/-- One row of table `i` (assignments): `(identity, experiment_name,
variant)`.  Because of the "PRIMAY" misspelling the table carries no
uniqueness constraint. -/
structure RowI where
  identity : String
  experiment_name : String
  variant : String
deriving DecidableEq, Repr

/-- One row of tables `p` / `c` (participation / conversion counters):
`(experiment_name, variant, total)` with `total INTEGER DEFAULT 0`. -/
structure Counter where
  experiment_name : String
  variant : String
  total : Nat
deriving DecidableEq, Repr

/-- The five tables created by `SQLiteBackend.__init__`, each as a list of
rows in insertion order.  `e` keeps only the experiment name (its
`started_on` column is never populated by this backend), `v` keeps
`(name, experiment_name)` pairs. -/
structure DB where
  e : List String
  v : List (String × String)
  i : List RowI
  p : List Counter
  c : List Counter
deriving DecidableEq, Repr

/-- The state of a fresh connection right after the five
`CREATE TABLE IF NOT EXISTS` statements: all tables empty. -/
def emptyDB : DB := ⟨[], [], [], [], []⟩

/-- `INSERT INTO e (name) VALUES (?)` — `name` is the table's PRIMARY KEY,
so the statement raises IntegrityError (leaving the table unchanged) when
the name is already present. -/
def insert_e (name : String) (db : DB) : Option Err × DB :=
  if name ∈ db.e then (some Err.integrityError, db)
  else (none, { db with e := db.e ++ [name] })

/-- `INSERT INTO v (name, experiment_name) VALUES (?, ?)` — `name` alone is
the table's PRIMARY KEY, so a variant name that exists anywhere in `v`
(even under another experiment) raises IntegrityError. -/
def insert_v (vname ename : String) (db : DB) : Option Err × DB :=
  if vname ∈ db.v.map Prod.fst then (some Err.integrityError, db)
  else (none, { db with v := db.v ++ [(vname, ename)] })

/-- The loop body of `set_experiment`: insert each variant name in order,
stopping at (and propagating) the first failure. -/
def insert_vs (vs : List String) (name : String) (db : DB) : Option Err × DB :=
  match vs with
  | [] => (none, db)
  | w :: rest =>
    match insert_v w name db with
    | (some err, db1) => (some err, db1)
    | (none, db1) => insert_vs rest name db1

/-- `SQLiteBackend.set_experiment(name, variants)`: a plain
`INSERT INTO e (name) VALUES (?)` followed by one `INSERT INTO v` per
variant.  No `OR IGNORE` and no handler, so a duplicate experiment name
raises on the very first statement. -/
def set_experiment (name : String) (variants : List String) (db : DB) :
    Option Err × DB :=
  match insert_e name db with
  | (some err, db1) => (some err, db1)
  | (none, db1) => insert_vs variants name db1

/-- The `Experiment` record that `SQLiteBackend._factory` constructs (the
class itself lives outside src; at the construction site it is a record
carrying the backend handle, the name, `started_on`, and the variant name
list — we keep the data fields the claims are about). -/
structure Experiment where
  name : String
  variants : List String
deriving DecidableEq, Repr

/-- The variant-list subquery of `SQLiteBackend._factory`:
`SELECT * FROM v WHERE experiment_name = ?`, names taken in table order. -/
def experiment_variants (name : String) (db : DB) : List String :=
  (db.v.filter (fun r => r.2 = name)).map Prod.fst

/-- `SQLiteBackend._factory(row)`: build the `Experiment` for a row of `e`. -/
def factory (name : String) (db : DB) : Experiment :=
  { name := name, variants := experiment_variants name db }

/-- `SQLiteBackend.get_experiment(name, variants)`: `SELECT * FROM e WHERE
name=?` and `fetchone`.  The `variants` parameter is accepted but never
used by the method body.  Since `name` is `e`'s primary key, a row exists
exactly when the name is in the table. -/
def get_experiment (name : String) (variants : List String) (db : DB) :
    Option Experiment :=
  if name ∈ db.e then some (factory name db) else none

/-- `SQLiteBackend.get_variant(identity, experiment_name)`:
`SELECT * FROM i WHERE identity = ? AND experiment_name = ?` and
`fetchone` — the first matching row in table order, or `None`. -/
def get_variant (identity experiment_name : String) (db : DB) :
    Option String :=
  (db.i.find? (fun r =>
    r.identity == identity && r.experiment_name == experiment_name)).map
    RowI.variant

/-- `INSERT OR IGNORE INTO p/c (experiment_name, variant) VALUES (?, ?)`:
if a row with that key exists the statement is ignored, otherwise a row is
inserted with `total` at its declared default 0. -/
def insert_or_ignore (ename vname : String) (tbl : List Counter) :
    List Counter :=
  if tbl.any (fun r => r.experiment_name == ename && r.variant == vname)
  then tbl
  else tbl ++ [⟨ename, vname, 0⟩]

/-- `UPDATE p/c SET total = total + 1 WHERE experiment_name = ? AND
variant = ?`. -/
def update_incr (ename vname : String) (tbl : List Counter) : List Counter :=
  tbl.map (fun r =>
    if r.experiment_name == ename && r.variant == vname
    then { r with total := r.total + 1 } else r)

/-- `SQLiteBackend.participate(identity, experiment_name, variant)`:
insert the assignment row into `i` (always succeeds — the "PRIMAY"
misspelling leaves `i` without any uniqueness constraint), then
create-if-absent and increment the participation counter. -/
def participate (identity experiment_name variant : String) (db : DB) :
    Option Err × DB :=
  let db1 := { db with i := db.i ++ [RowI.mk identity experiment_name variant] }
  let db2 := { db1 with p := insert_or_ignore experiment_name variant db1.p }
  (none, { db2 with p := update_incr experiment_name variant db2.p })

/-- `SQLiteBackend.score(experiment_name, variant)`: create-if-absent and
increment the conversion counter. -/
def score (experiment_name variant : String) (db : DB) : Option Err × DB :=
  let db1 := { db with c := insert_or_ignore experiment_name variant db.c }
  (none, { db1 with c := update_incr experiment_name variant db1.c })

/-- The read side shared by `participants` and `conversions`:
`SELECT total FROM ... WHERE experiment_name = ? AND variant = ?`,
`fetchone`, then `int(row[0]) if row and row[0] else 0` — 0 when
there is no row, and also when the stored total is the falsy 0. -/
def read_total (ename vname : String) (tbl : List Counter) : Nat :=
  match tbl.find? (fun r =>
      r.experiment_name == ename && r.variant == vname) with
  | none => 0
  | some r => if r.total = 0 then 0 else r.total

/-- `SQLiteBackend.participants(experiment_name, variant)`.  Total — never
raises: an absent row simply yields 0. -/
def participants (experiment_name variant : String) (db : DB) : Nat :=
  read_total experiment_name variant db.p

/-- `SQLiteBackend.conversions(experiment_name, variant)`.  Total — never
raises: an absent row simply yields 0. -/
def conversions (experiment_name variant : String) (db : DB) : Nat :=
  read_total experiment_name variant db.c

/-- A Python runtime value, just enough to model the type check in
`SQLiteBackend.__init__`: strings, `sqlite3.Connection` instances, and
class objects such as `basestring`. -/
inductive PyObj where
  | strObj (s : String)
  | connObj
  | classObj (n : String)
deriving DecidableEq, Repr

/-- Which modelled classes each modelled value is an instance of. -/
def instanceOf : PyObj → String → Bool
  | PyObj.strObj _, n => n == "basestring" || n == "str" || n == "object"
  | PyObj.connObj, n => n == "Connection" || n == "object"
  | PyObj.classObj _, n => n == "type" || n == "object"

/-- Python 2 `isinstance(obj, classinfo)`: raises TypeError unless
`classinfo` is a class (or a tuple of classes). -/
def isinstance (obj classinfo : PyObj) : Except Err Bool :=
  match classinfo with
  | PyObj.classObj n => Except.ok (instanceOf obj n)
  | _ => Except.error Err.typeError

/-- The admissible arguments for the constructor's `db` parameter per its
docstring: "a SQLite connection string, or a ``sqlite3.Connection``
object". -/
inductive DbArg where
  | connString (s : String)
  | connection
deriving DecidableEq, Repr

/-- View a `db` argument as the Python value handed to `isinstance`. -/
def DbArg.toPyObj : DbArg → PyObj
  | DbArg.connString s => PyObj.strObj s
  | DbArg.connection => PyObj.connObj

/-- `SQLiteBackend.__init__(db, ...)` (the unused `table_prefix` parameter
is omitted).  Its first statement evaluates `isinstance(basestring, db)` —
the two arguments are reversed, so the class `basestring` is passed as the
object and `db` (a string or a Connection instance, never a class) as the
classinfo, and under Python 2 the call raises TypeError.  (Under Python 3
the same line fails even earlier: the name `basestring` does not exist, so
a NameError is raised.)  Only after that check would the constructor
connect and run its five `CREATE TABLE IF NOT EXISTS` statements, reaching
the `emptyDB` catalog. -/
def backend_init (db : DbArg) : Except Err DB := do
  let isStr ← isinstance (PyObj.classObj "basestring") db.toPyObj
  let _ := isStr
  Except.ok emptyDB

/-- Counter-table helper: one `INSERT OR IGNORE` followed by the `UPDATE
... SET total = total + 1` raises the read-back total by exactly one,
whether or not a row for the key existed before. -/
theorem read_total_incr (ename vname : String) (tbl : List Counter) :
    read_total ename vname
        (update_incr ename vname (insert_or_ignore ename vname tbl)) =
      read_total ename vname tbl + 1 := by
  induction tbl with
  | nil =>
    simp [insert_or_ignore, update_incr, read_total, List.find?]
  | cons r rest ih =>
    by_cases hm : (r.experiment_name == ename && r.variant == vname) = true
    · have hins : insert_or_ignore ename vname (r :: rest) = r :: rest := by
        simp [insert_or_ignore, List.any_cons, hm]
      have hupd : update_incr ename vname (r :: rest) =
          { r with total := r.total + 1 } :: update_incr ename vname rest := by
        unfold update_incr
        rw [List.map_cons]
        congr 1
        exact if_pos hm
      rw [hins, hupd]
      have hm' : (({ r with total := r.total + 1 } : Counter).experiment_name
          == ename && ({ r with total := r.total + 1 } : Counter).variant
          == vname) = true := hm
      have hf1 : List.find?
          (fun t : Counter => t.experiment_name == ename && t.variant == vname)
          (({ r with total := r.total + 1 } : Counter)
            :: update_incr ename vname rest)
          = some { r with total := r.total + 1 } :=
        List.find?_cons_of_pos _ hm'
      have hf2 : List.find?
          (fun t : Counter => t.experiment_name == ename && t.variant == vname)
          (r :: rest) = some r :=
        List.find?_cons_of_pos _ hm
      unfold read_total
      rw [hf1, hf2]
      by_cases h0 : r.total = 0 <;> simp [h0]
    · have hins : insert_or_ignore ename vname (r :: rest) =
          r :: insert_or_ignore ename vname rest := by
        unfold insert_or_ignore
        simp only [List.any_cons, hm, Bool.false_or]
        by_cases ha : rest.any
            (fun t => t.experiment_name == ename && t.variant == vname) = true
        · rw [if_pos ha, if_pos ha]
        · rw [if_neg ha, if_neg ha, List.cons_append]
      have hupd : ∀ tl, update_incr ename vname (r :: tl) =
          r :: update_incr ename vname tl := by
        intro tl
        unfold update_incr
        rw [List.map_cons]
        congr 1
        exact if_neg hm
      rw [hins, hupd]
      have hf1 : List.find?
          (fun t : Counter => t.experiment_name == ename && t.variant == vname)
          (r :: update_incr ename vname (insert_or_ignore ename vname rest))
          = List.find?
            (fun t : Counter => t.experiment_name == ename && t.variant == vname)
            (update_incr ename vname (insert_or_ignore ename vname rest)) :=
        List.find?_cons_of_neg _ hm
      have hf2 : List.find?
          (fun t : Counter => t.experiment_name == ename && t.variant == vname)
          (r :: rest) = List.find?
            (fun t : Counter => t.experiment_name == ename && t.variant == vname)
            rest :=
        List.find?_cons_of_neg _ hm
      unfold read_total
      rw [hf1, hf2]
      unfold read_total at ih
      exact ih

/-- Counter-table helper: the read-back total of a key with no row is 0. -/
theorem read_total_of_no_row (ename vname : String) (tbl : List Counter)
    (h : ∀ r ∈ tbl, ¬(r.experiment_name = ename ∧ r.variant = vname)) :
    read_total ename vname tbl = 0 := by
  unfold read_total
  have hnone : tbl.find?
      (fun r => r.experiment_name == ename && r.variant == vname) = none := by
    rw [List.find?_eq_none]
    intro x hx hpx
    simp only [Bool.and_eq_true, beq_iff_eq] at hpx
    exact h x hx hpx
  rw [hnone]

/-- C1: the claim fails on the source as written.  Because the `CREATE
TABLE` statement for `i` misspells PRIMARY as "PRIMAY", the assignment
table has no uniqueness constraint, so a second `participate` call for the
same `(visitor_identity, experiment_name)` pair inserts a second
assignment row and increments the participation counter a second time:
from a fresh store, two identical `participate("ABC123", "show_promo",
"red")` calls leave two assignment rows for the pair and a participation
count of 2 (both calls succeed — neither raises). -/
theorem participate_twice_double_counts :
    (participate "ABC123" "show_promo" "red"
        (participate "ABC123" "show_promo" "red" emptyDB).2).2.i =
      [RowI.mk "ABC123" "show_promo" "red",
       RowI.mk "ABC123" "show_promo" "red"] ∧
    participants "show_promo" "red"
      (participate "ABC123" "show_promo" "red"
        (participate "ABC123" "show_promo" "red" emptyDB).2).2 = 2 ∧
    (participate "ABC123" "show_promo" "red"
      (participate "ABC123" "show_promo" "red" emptyDB).2).1 = none := by
  exact ⟨rfl, rfl, rfl⟩

/-- C3: `set_experiment` for a name that already exists raises
IntegrityError on its very first statement (the plain `INSERT INTO e`,
whose `name` column is the primary key) and leaves the store completely
unchanged — the first writer's experiment and variant list survive intact
and no partial state is produced. -/
theorem set_experiment_existing_name_conflict (name : String)
    (vs : List String) (db : DB) (h : name ∈ db.e) :
    set_experiment name vs db = (some Err.integrityError, db) := by
  unfold set_experiment insert_e
  rw [if_pos h]

/-- Witness for `set_experiment_existing_name_conflict`: re-creating the
already-stored experiment "x" surfaces the conflict and changes nothing. -/
theorem set_experiment_existing_name_conflict_app :
    set_experiment "x" ["c"] (DB.mk ["x"] [("a", "x"), ("b", "x")] [] [] [])
      = (some Err.integrityError,
         DB.mk ["x"] [("a", "x"), ("b", "x")] [] [] []) :=
  set_experiment_existing_name_conflict "x" ["c"]
    (DB.mk ["x"] [("a", "x"), ("b", "x")] [] [] []) (by decide)

/-- C5: on any store state — whether or not a counter row already exists —
one `participate` call raises `participants` for its key by exactly 1, and
one `score` call raises `conversions` for its key by exactly 1. -/
theorem participate_score_increment_by_one
    (identity ename vname : String) (db : DB) :
    participants ename vname (participate identity ename vname db).2 =
        participants ename vname db + 1 ∧
    conversions ename vname (score ename vname db).2 =
        conversions ename vname db + 1 := by
  constructor
  · unfold participate participants
    exact read_total_incr ename vname db.p
  · unfold score conversions
    exact read_total_incr ename vname db.c

/-- C6: for a key `(experiment_name, variant)` with no counter row,
`participants` and `conversions` both return 0; both accessors are total
functions of the store (no failure path exists for unknown keys). -/
theorem counters_zero_for_unwritten (ename vname : String) (db : DB)
    (hp : ∀ r ∈ db.p, ¬(r.experiment_name = ename ∧ r.variant = vname))
    (hc : ∀ r ∈ db.c, ¬(r.experiment_name = ename ∧ r.variant = vname)) :
    participants ename vname db = 0 ∧ conversions ename vname db = 0 :=
  ⟨read_total_of_no_row ename vname db.p hp,
   read_total_of_no_row ename vname db.c hc⟩

/-- Witness for `counters_zero_for_unwritten`: a key never written in the
fresh store reads as 0 on both counters. -/
theorem counters_zero_for_unwritten_app :
    participants "show_promo" "True" emptyDB = 0 ∧
    conversions "show_promo" "True" emptyDB = 0 :=
  counters_zero_for_unwritten "show_promo" "True" emptyDB
    (fun r hr => absurd hr (List.not_mem_nil r))
    (fun r hr => absurd hr (List.not_mem_nil r))

/-- C7 (counterexample to the claim as stated): with the store holding
experiment "x" with variants ["a", "b"], the lookup
`get_experiment("x", ["mismatch"])` — whose supplied variant names match
nothing in the store — succeeds silently and returns exactly what the
matching call returns: no warning, error, or absence signals the
configuration drift, so the lookup does not take the expected variant
names into account. -/
theorem get_experiment_mismatch_not_surfaced :
    get_experiment "x" ["mismatch"]
        (DB.mk ["x"] [("a", "x"), ("b", "x")] [] [] [])
      = some (Experiment.mk "x" ["a", "b"]) ∧
    get_experiment "x" ["mismatch"]
        (DB.mk ["x"] [("a", "x"), ("b", "x")] [] [] [])
      = get_experiment "x" ["a", "b"]
        (DB.mk ["x"] [("a", "x"), ("b", "x")] [] [] []) := by
  exact ⟨rfl, rfl⟩

/-- C7 (amended): `get_experiment` fetches by name only and ignores the
supplied expected variant names — the result is the same for any two
supplied lists, so a stored-versus-supplied mismatch is not detected or
surfaced by the lookup. -/
theorem get_experiment_ignores_expected_variants (name : String)
    (vs vs' : List String) (db : DB) :
    get_experiment name vs db = get_experiment name vs' db := rfl

/-- C10: for every admissible `db` argument (a connection string or a
`sqlite3.Connection`), `SQLiteBackend.__init__` raises on its first
statement — `isinstance(basestring, db)` has its arguments reversed, so
the classinfo position holds a non-class and Python 2 raises TypeError
(under Python 3 the unresolved name `basestring` raises NameError even
earlier) — hence no table is ever created and no store operation is
reachable through a successfully constructed instance. -/
theorem backend_init_always_raises (db : DbArg) :
    backend_init db = Except.error Err.typeError := by
  cases db <;> rfl

/-- One mutating store call, for building reachable store states. -/
inductive Op where
  | setExp (name : String) (variants : List String)
  | part (identity experiment_name variant : String)
  | scoreOp (experiment_name variant : String)

/-- Apply one mutating store call; the connection state afterwards is the
second component whether or not the call raised. -/
def applyOp (op : Op) (db : DB) : DB :=
  match op with
  | Op.setExp n vs => (set_experiment n vs db).2
  | Op.part ident en vn => (participate ident en vn db).2
  | Op.scoreOp en vn => (score en vn db).2

/-- Run a sequence of mutating store calls. -/
def runOps : List Op → DB → DB
  | [], db => db
  | op :: rest, db => runOps rest (applyOp op db)

/-- A store state is reachable when some sequence of store calls produces
it from the fresh store. -/
def Reachable (db : DB) : Prop := ∃ ops, runOps ops emptyDB = db

/-- The store invariant used below: every row of the variant table refers
to an experiment present in the experiment table. -/
def VClean (db : DB) : Prop := ∀ r ∈ db.v, r.2 ∈ db.e

theorem insert_v_e (w n : String) (db : DB) :
    (insert_v w n db).2.e = db.e := by
  unfold insert_v
  split <;> rfl

theorem insert_vs_e (vs : List String) (n : String) (db : DB) :
    (insert_vs vs n db).2.e = db.e := by
  induction vs generalizing db with
  | nil => rfl
  | cons w rest ih =>
    unfold insert_vs
    cases hw : insert_v w n db with
    | mk err db1 =>
      cases err with
      | some err =>
        have h2 := insert_v_e w n db
        rw [hw] at h2
        exact h2
      | none =>
        have h1 : db1.e = db.e := by
          have h2 := insert_v_e w n db
          rw [hw] at h2
          exact h2
        rw [← h1]
        exact ih db1

theorem vclean_insert_vs (vs : List String) (n : String) (db : DB)
    (hn : n ∈ db.e) (hv : VClean db) : VClean (insert_vs vs n db).2 := by
  induction vs generalizing db with
  | nil => exact hv
  | cons w rest ih =>
    unfold insert_vs
    cases hw : insert_v w n db with
    | mk err db1 =>
      have hdb1 : VClean db1 ∧ n ∈ db1.e := by
        unfold insert_v at hw
        split at hw
        · cases hw
          exact ⟨hv, hn⟩
        · cases hw
          refine ⟨?_, hn⟩
          intro r hr
          rcases List.mem_append.1 hr with h | h
          · exact hv r h
          · rcases List.mem_singleton.1 h with rfl
            exact hn
      cases err with
      | some err => exact hdb1.1
      | none => exact ih db1 hdb1.2 hdb1.1

theorem vclean_applyOp (op : Op) (db : DB) (hv : VClean db) :
    VClean (applyOp op db) := by
  cases op with
  | setExp n vs =>
    show VClean (set_experiment n vs db).2
    unfold set_experiment insert_e
    by_cases hn : n ∈ db.e
    · rw [if_pos hn]
      exact hv
    · rw [if_neg hn]
      refine vclean_insert_vs vs n _ (List.mem_append.2 (Or.inr ?_)) ?_
      · exact List.mem_singleton.2 rfl
      · intro r hr
        exact List.mem_append.2 (Or.inl (hv r hr))
  | part ident en vn =>
    exact hv
  | scoreOp en vn =>
    exact hv

theorem vclean_runOps (ops : List Op) (db : DB) (hv : VClean db) :
    VClean (runOps ops db) := by
  induction ops generalizing db with
  | nil => exact hv
  | cons op rest ih => exact ih (applyOp op db) (vclean_applyOp op db hv)

theorem vclean_of_reachable (db : DB) (h : Reachable db) : VClean db := by
  rcases h with ⟨ops, hops⟩
  have := vclean_runOps ops emptyDB (fun r hr => absurd hr (List.not_mem_nil r))
  rwa [hops] at this

theorem insert_vs_ok_v (vs : List String) (n : String) (db db' : DB)
    (h : insert_vs vs n db = (none, db')) :
    db'.v = db.v ++ vs.map (fun w => (w, n)) := by
  induction vs generalizing db with
  | nil =>
    cases h
    simp
  | cons w rest ih =>
    unfold insert_vs at h
    revert h
    cases hw : insert_v w n db with
    | mk err db1 =>
      cases err with
      | some err =>
        intro h
        cases h
      | none =>
        intro h
        have h1 : db1.v = db.v ++ [(w, n)] := by
          unfold insert_v at hw
          split at hw
          · cases hw
          · cases hw
            rfl
        rw [ih db1 h, h1]
        simp

/-- C4: from any reachable store state in which the experiment name is
absent, a successful `set_experiment(name, vs)` followed by
`get_experiment(name, vs)` returns an experiment (not absent) whose name
is the given name and whose variant list is exactly `vs` in input order. -/
theorem set_get_experiment_roundtrip (name : String) (vs : List String)
    (db db' : DB) (hreach : Reachable db)
    (habs : get_experiment name vs db = none)
    (hok : set_experiment name vs db = (none, db')) :
    get_experiment name vs db' = some (Experiment.mk name vs) := by
  have hne : name ∉ db.e := by
    unfold get_experiment at habs
    by_cases hn : name ∈ db.e
    · rw [if_pos hn] at habs
      cases habs
    · exact hn
  have hclean : VClean db := vclean_of_reachable db hreach
  unfold set_experiment insert_e at hok
  rw [if_neg hne] at hok
  have hok' : insert_vs vs name { db with e := db.e ++ [name] } =
      (none, db') := hok
  have hv' : db'.v = db.v ++ vs.map (fun w => (w, name)) := by
    have h2 := insert_vs_ok_v vs name { db with e := db.e ++ [name] } db' hok'
    simpa using h2
  have he' : db'.e = db.e ++ [name] := by
    have h2 := insert_vs_e vs name { db with e := db.e ++ [name] }
    rw [hok'] at h2
    simpa using h2
  have hmem : name ∈ db'.e := by
    rw [he']
    exact List.mem_append.2 (Or.inr (List.mem_singleton.2 rfl))
  unfold get_experiment
  rw [if_pos hmem]
  unfold factory experiment_variants
  rw [hv', List.filter_append]
  have hfilter_old : db.v.filter (fun r => r.2 = name) = [] := by
    rw [List.filter_eq_nil_iff]
    intro r hr
    have : r.2 ∈ db.e := hclean r hr
    simp only [decide_eq_true_eq]
    intro hcontra
    rw [hcontra] at this
    exact hne this
  have hfilter_new : (vs.map (fun w => (w, name))).filter
      (fun r => r.2 = name) = vs.map (fun w => (w, name)) := by
    rw [List.filter_eq_self]
    intro a ha
    rcases List.mem_map.1 ha with ⟨w, _, rfl⟩
    simp
  rw [hfilter_old, hfilter_new, List.nil_append, List.map_map]
  have hid : (Prod.fst ∘ fun w : String => (w, name)) = id := rfl
  rw [hid, List.map_id]

/-- Witness for `set_get_experiment_roundtrip`: creating experiment "x"
with variants ["a", "b"] in the fresh store and re-fetching it returns
exactly that experiment. -/
theorem set_get_experiment_roundtrip_app :
    get_experiment "x" ["a", "b"]
        (DB.mk ["x"] [("a", "x"), ("b", "x")] [] [] [])
      = some (Experiment.mk "x" ["a", "b"]) :=
  set_get_experiment_roundtrip "x" ["a", "b"] emptyDB
    (DB.mk ["x"] [("a", "x"), ("b", "x")] [] [] [])
    ⟨[], rfl⟩ rfl rfl

/-- A caller-facing variant value.  The parser's boolean default carries
the Python values `True` / `False`, while explicit definitions in the
tests carry strings, so a value is one or the other. -/
inductive Val where
  | str (s : String)
  | bool (b : Bool)
deriving DecidableEq, Repr

/-- One caller-supplied variant definition: a 2-tuple `(name, value)`
(`weight = none`) or a 3-tuple `(name, value, weight)`.  Weights are
Python integers, so they are modelled as `Int` and positivity is a real
check. -/
structure RawDef where
  name : String
  value : Val
  weight : Option Int
deriving DecidableEq, Repr

/-- The configuration errors of the parser contract. -/
inductive ConfigurationError where
  | arityMismatch
  | tooFewVariants
  | duplicateName
  | nonPositiveWeight
deriving DecidableEq, Repr

/-- All tuples of one call supply the same arity. -/
def sameArity (defs : List RawDef) : Bool :=
  defs.all (fun d => d.weight.isSome) || defs.all (fun d => d.weight.isNone)

/-- Modelled from the spec: `Cleaver._parse_variants` — the engine module
defining it (cleaver/__init__.py) is not under src; only its tests are.
Spec section 4.1: empty input yields the canonical two-variant boolean
default (names "True"/"False", values True/False, weight 1 each); mixing
2-tuples and 3-tuples is a configuration error; a missing weight defaults
to 1; fewer than 2 variants, a duplicate name, or a non-positive weight
is a `ConfigurationError`; otherwise the three output sequences are the
names, values and weights in input order. -/
def parse (raw : List RawDef) :
    Except ConfigurationError (List String × List Val × List Int) :=
  match raw with
  | [] =>
    Except.ok (["True", "False"], [Val.bool true, Val.bool false], [1, 1])
  | _ =>
    if ¬ sameArity raw then Except.error ConfigurationError.arityMismatch
    else if raw.length < 2 then Except.error ConfigurationError.tooFewVariants
    else if ¬ (raw.map RawDef.name).Nodup then
      Except.error ConfigurationError.duplicateName
    else if ¬ raw.all (fun d => decide (0 < d.weight.getD 1)) then
      Except.error ConfigurationError.nonPositiveWeight
    else
      Except.ok (raw.map RawDef.name, raw.map RawDef.value,
        raw.map (fun d => d.weight.getD 1))

/-- C8: for the weighted definitions `[("red","#F00",1), ("green","#0F0",2),
("blue","#00F",5)]`, `parse` yields names `("red","green","blue")`, values
`("#F00","#0F0","#00F")` and weights `(1,2,5)` — the three output
sequences aligned and in input order. -/
theorem parse_weighted_preserves_order :
    parse [RawDef.mk "red" (Val.str "#F00") (some 1),
           RawDef.mk "green" (Val.str "#0F0") (some 2),
           RawDef.mk "blue" (Val.str "#00F") (some 5)]
      = Except.ok (["red", "green", "blue"],
          [Val.str "#F00", Val.str "#0F0", Val.str "#00F"],
          [1, 2, 5]) := by
  rfl

/-- Errors the assignment engine can surface. -/
inductive SplitError where
  | configuration (e : ConfigurationError)
  | consistency
  | valueMissing
  | samplerRange
deriving DecidableEq, Repr

/-- Modelled from the spec: `split` (AssignmentEngine, spec section 4.4) —
the engine module (cleaver/__init__.py) is not under src, so its steps are
taken from the spec and run against the source-embedded store above.
The sampler's uniform draw is passed in as the chosen index `idx`
(section 4.2 guarantees an in-range index; `samplerRange` marks the
out-of-contract case of the model).  Steps: parse the definitions; fetch
the experiment, creating it and re-fetching when absent (a store
uniqueness conflict is treated as "already exists"; a still-absent
re-fetch is the fatal consistency error); look up the visitor's variant;
when absent, pick `names[idx]`, record it via `participate`; finally
return `values[names.index(variant_name)]`.  The result carries the
decoded value, whether `participate` was invoked, and the store state. -/
def split (experiment_name : String) (raw : List RawDef)
    (identity : String) (idx : Nat) (db : DB) :
    Except SplitError (Val × Bool × DB) :=
  match parse raw with
  | Except.error e => Except.error (SplitError.configuration e)
  | Except.ok parsed =>
    let names := parsed.1
    let values := parsed.2.1
    let fetched : Except SplitError DB :=
      match get_experiment experiment_name names db with
      | some _ => Except.ok db
      | none =>
        let db1 := (set_experiment experiment_name names db).2
        match get_experiment experiment_name names db1 with
        | some _ => Except.ok db1
        | none => Except.error SplitError.consistency
    match fetched with
    | Except.error e => Except.error e
    | Except.ok db1 =>
      match get_variant identity experiment_name db1 with
      | some vname =>
        match names.findIdx? (fun n => n == vname) with
        | some j =>
          match values[j]? with
          | some v => Except.ok (v, false, db1)
          | none => Except.error SplitError.valueMissing
        | none => Except.error SplitError.valueMissing
      | none =>
        match names[idx]? with
        | none => Except.error SplitError.samplerRange
        | some vname =>
          let db2 := (participate identity experiment_name vname db1).2
          match names.findIdx? (fun n => n == vname) with
          | some j =>
            match values[j]? with
            | some v => Except.ok (v, true, db2)
            | none => Except.error SplitError.valueMissing
          | none => Except.error SplitError.valueMissing

theorem insert_v_i (w n : String) (db : DB) :
    (insert_v w n db).2.i = db.i := by
  unfold insert_v
  split <;> rfl

theorem insert_vs_i (vs : List String) (n : String) (db : DB) :
    (insert_vs vs n db).2.i = db.i := by
  induction vs generalizing db with
  | nil => rfl
  | cons w rest ih =>
    unfold insert_vs
    cases hw : insert_v w n db with
    | mk err db1 =>
      have h1 : db1.i = db.i := by
        have h2 := insert_v_i w n db
        rw [hw] at h2
        exact h2
      cases err with
      | some err => exact h1
      | none =>
        rw [← h1]
        exact ih db1

theorem set_experiment_i (n : String) (vs : List String) (db : DB) :
    (set_experiment n vs db).2.i = db.i := by
  unfold set_experiment insert_e
  by_cases hn : n ∈ db.e
  · rw [if_pos hn]
  · rw [if_neg hn]
    exact insert_vs_i vs n { db with e := db.e ++ [n] }

theorem get_variant_congr_i (ident en : String) (db db' : DB)
    (h : db.i = db'.i) : get_variant ident en db = get_variant ident en db' := by
  unfold get_variant
  rw [h]

/-- After `participate` for a pair with no prior assignment row, the
lookup returns exactly the participated variant (the appended row is the
only match). -/
theorem get_variant_after_participate (ident en vn : String) (db : DB)
    (h : get_variant ident en db = none) :
    get_variant ident en (participate ident en vn db).2 = some vn := by
  have hfind : db.i.find? (fun r =>
      r.identity == ident && r.experiment_name == en) = none := by
    unfold get_variant at h
    exact Option.map_eq_none.1 h
  show ((db.i ++ [RowI.mk ident en vn]).find? (fun r =>
    r.identity == ident && r.experiment_name == en)).map RowI.variant = some vn
  rw [List.find?_append, hfind]
  have hp : ((RowI.mk ident en vn).identity == ident &&
      (RowI.mk ident en vn).experiment_name == en) = true := by
    simp
  have hf : List.find? (fun r : RowI =>
      r.identity == ident && r.experiment_name == en)
      [RowI.mk ident en vn] = some (RowI.mk ident en vn) :=
    List.find?_cons_of_pos _ hp
  rw [hf]
  rfl

theorem get_experiment_mem (n : String) (vs : List String) (db : DB)
    (x : Experiment) (h : get_experiment n vs db = some x) : n ∈ db.e := by
  unfold get_experiment at h
  by_cases hn : n ∈ db.e
  · exact hn
  · rw [if_neg hn] at h
    cases h

theorem get_experiment_of_mem (n : String) (vs : List String) (db : DB)
    (h : n ∈ db.e) : get_experiment n vs db = some (factory n db) := by
  unfold get_experiment
  rw [if_pos h]

/-- C2: for a fixed visitor identity and experiment, a repeated `split`
call with the same raw definitions returns the same decoded value as the
first successful call, regardless of the sampler index it is given,
invokes `participate` zero times (the returned flag is `false`), and
leaves the store untouched — so over any number of repetitions
`participate` runs at most once for the identity/experiment pair and the
decoded value never changes. -/
theorem split_stable (en : String) (raw : List RawDef) (ident : String)
    (idx idx2 : Nat) (db0 db1 : DB) (val : Val) (b : Bool)
    (h : split en raw ident idx db0 = Except.ok (val, b, db1)) :
    split en raw ident idx2 db1 = Except.ok (val, false, db1) := by
  unfold split at h ⊢
  cases hp : parse raw with
  | error e =>
    rw [hp] at h
    cases h
  | ok parsed =>
    simp only [hp] at h ⊢
    cases hge : get_experiment en parsed.1 db0 with
    | some ex =>
      simp only [hge] at h
      cases hgv : get_variant ident en db0 with
      | some vname =>
        simp only [hgv] at h
        cases hj : parsed.1.findIdx? (fun n => n == vname) with
        | none =>
            simp only [hj] at h
            exact Except.noConfusion h
        | some j =>
          simp only [hj] at h
          cases hv : parsed.2.1[j]? with
          | none =>
            simp only [hv] at h
            exact Except.noConfusion h
          | some v =>
            simp only [hv, Except.ok.injEq, Prod.mk.injEq] at h
            obtain ⟨rfl, rfl, rfl⟩ := h
            simp only [hge, hgv, hj, hv]
      | none =>
        simp only [hgv] at h
        cases hni : parsed.1[idx]? with
        | none =>
            simp only [hni] at h
            exact Except.noConfusion h
        | some vname =>
          simp only [hni] at h
          cases hj : parsed.1.findIdx? (fun n => n == vname) with
          | none =>
            simp only [hj] at h
            exact Except.noConfusion h
          | some j =>
            simp only [hj] at h
            cases hv : parsed.2.1[j]? with
            | none =>
            simp only [hv] at h
            exact Except.noConfusion h
            | some v =>
              simp only [hv, Except.ok.injEq, Prod.mk.injEq] at h
              obtain ⟨rfl, rfl, rfl⟩ := h
              have hmem : en ∈ ((participate ident en vname db0).2).e :=
                get_experiment_mem en parsed.1 db0 ex hge
              have hge2 : get_experiment en parsed.1
                  (participate ident en vname db0).2
                  = some (factory en (participate ident en vname db0).2) :=
                get_experiment_of_mem en parsed.1 _ hmem
              have hgv2 : get_variant ident en
                  (participate ident en vname db0).2 = some vname :=
                get_variant_after_participate ident en vname db0 hgv
              simp only [hge2, hgv2, hj, hv]
    | none =>
      simp only [hge] at h
      cases hge2 : get_experiment en parsed.1 (set_experiment en parsed.1 db0).2 with
      | none =>
            simp only [hge2] at h
            exact Except.noConfusion h
      | some ex2 =>
        simp only [hge2] at h
        cases hgv : get_variant ident en (set_experiment en parsed.1 db0).2 with
        | some vname =>
          simp only [hgv] at h
          cases hj : parsed.1.findIdx? (fun n => n == vname) with
          | none =>
            simp only [hj] at h
            exact Except.noConfusion h
          | some j =>
            simp only [hj] at h
            cases hv : parsed.2.1[j]? with
            | none =>
            simp only [hv] at h
            exact Except.noConfusion h
            | some v =>
              simp only [hv, Except.ok.injEq, Prod.mk.injEq] at h
              obtain ⟨rfl, rfl, rfl⟩ := h
              simp only [hge2, hgv, hj, hv]
        | none =>
          simp only [hgv] at h
          cases hni : parsed.1[idx]? with
          | none =>
            simp only [hni] at h
            exact Except.noConfusion h
          | some vname =>
            simp only [hni] at h
            cases hj : parsed.1.findIdx? (fun n => n == vname) with
            | none =>
            simp only [hj] at h
            exact Except.noConfusion h
            | some j =>
              simp only [hj] at h
              cases hv : parsed.2.1[j]? with
              | none =>
            simp only [hv] at h
            exact Except.noConfusion h
              | some v =>
                simp only [hv, Except.ok.injEq, Prod.mk.injEq] at h
                obtain ⟨rfl, rfl, rfl⟩ := h
                have hmem : en ∈ ((participate ident en vname
                    (set_experiment en parsed.1 db0).2).2).e :=
                  get_experiment_mem en parsed.1 _ ex2 hge2
                have hge3 : get_experiment en parsed.1
                    (participate ident en vname
                      (set_experiment en parsed.1 db0).2).2
                    = some (factory en (participate ident en vname
                      (set_experiment en parsed.1 db0).2).2) :=
                  get_experiment_of_mem en parsed.1 _ hmem
                have hgv2 : get_variant ident en
                    (participate ident en vname
                      (set_experiment en parsed.1 db0).2).2 = some vname :=
                  get_variant_after_participate ident en vname _ hgv
                simp only [hge3, hgv2, hj, hv]

/-- Witness for `split_stable`: a first `split` on the fresh store assigns
"red" and decodes "#F00"; the repeated call (with a different sampler
index) decodes "#F00" again without participating or changing the store. -/
theorem split_stable_app :
    split "show_promo"
      [RawDef.mk "red" (Val.str "#F00") (some 1),
       RawDef.mk "green" (Val.str "#0F0") (some 2),
       RawDef.mk "blue" (Val.str "#00F") (some 5)]
      "ABC" 1
      (DB.mk ["show_promo"]
        [("red", "show_promo"), ("green", "show_promo"), ("blue", "show_promo")]
        [RowI.mk "ABC" "show_promo" "red"]
        [Counter.mk "show_promo" "red" 1] [])
      = Except.ok (Val.str "#F00", false,
          DB.mk ["show_promo"]
            [("red", "show_promo"), ("green", "show_promo"),
             ("blue", "show_promo")]
            [RowI.mk "ABC" "show_promo" "red"]
            [Counter.mk "show_promo" "red" 1] []) :=
  split_stable "show_promo"
    [RawDef.mk "red" (Val.str "#F00") (some 1),
     RawDef.mk "green" (Val.str "#0F0") (some 2),
     RawDef.mk "blue" (Val.str "#00F") (some 5)]
    "ABC" 0 1 emptyDB
    (DB.mk ["show_promo"]
      [("red", "show_promo"), ("green", "show_promo"), ("blue", "show_promo")]
      [RowI.mk "ABC" "show_promo" "red"]
      [Counter.mk "show_promo" "red" 1] [])
    (Val.str "#F00") true rfl


/-- Modelled from the spec: the WeightedSampler reference algorithm (spec
section 4.2) — the sampler module (cleaver/util.py, `random_variant`) is
not under src; only its speed test is.  One-time setup: the running
cumulative-sum array of the weights, one boundary per variant (never one
slot per unit of weight). -/
def cumulative (acc : Nat) : List Nat → List Nat
  | [] => []
  | w :: ws => (acc + w) :: cumulative (acc + w) ws

/-- Modelled from the spec: the per-selection search over cumulative
boundaries on the half-open index range `[lo, hi)` — find the first index
whose boundary exceeds the uniform draw `r`. -/
def bsearch (arr : List Nat) (r : Nat) (lo hi : Nat) : Nat :=
  if hi ≤ lo then lo
  else if r < arr.getD ((lo + hi) / 2) 0 then bsearch arr r lo ((lo + hi) / 2)
  else bsearch arr r ((lo + hi) / 2 + 1) hi
termination_by hi - lo
decreasing_by
  all_goals omega

/-- The cost of one `bsearch` call, counted as the number of boundary
comparisons it performs (one per recursion step along the same path). -/
def bsearchProbes (arr : List Nat) (r : Nat) (lo hi : Nat) : Nat :=
  if hi ≤ lo then 0
  else if r < arr.getD ((lo + hi) / 2) 0 then
    bsearchProbes arr r lo ((lo + hi) / 2) + 1
  else bsearchProbes arr r ((lo + hi) / 2 + 1) hi + 1
termination_by hi - lo
decreasing_by
  all_goals omega

/-- Modelled from the spec: `choose(weights) -> index`, one selection —
a draw `r` from `[0, sum weights)` searched against the cumulative
boundaries. -/
def choose (ws : List Nat) (r : Nat) : Nat :=
  bsearch (cumulative 0 ws) r 0 ws.length

theorem cumulative_length (acc : Nat) (ws : List Nat) :
    (cumulative acc ws).length = ws.length := by
  induction ws generalizing acc with
  | nil => rfl
  | cons w rest ih =>
    unfold cumulative
    simp [ih]

theorem log2_mono (m n : Nat) (h : m ≤ n) : Nat.log2 m ≤ Nat.log2 n := by
  rw [Nat.log2_eq_log_two, Nat.log2_eq_log_two]
  exact Nat.log_mono_right h

theorem log2_half_succ (n : Nat) (h : 2 ≤ n) :
    Nat.log2 (n / 2) + 1 = Nat.log2 n := by
  rw [Nat.log2_eq_log_two, Nat.log2_eq_log_two, Nat.log_div_base]
  have hpos : 0 < Nat.log 2 n := Nat.log_pos (by omega) h
  omega

theorem bsearchProbes_empty (arr : List Nat) (r lo hi : Nat) (h : hi ≤ lo) :
    bsearchProbes arr r lo hi = 0 := by
  unfold bsearchProbes
  rw [if_pos h]

theorem bsearchProbes_le (arr : List Nat) (r : Nat) :
    ∀ n lo hi, hi - lo ≤ n →
      bsearchProbes arr r lo hi ≤ Nat.log2 (hi - lo) + 1 := by
  intro n
  induction n with
  | zero =>
    intro lo hi h
    rw [bsearchProbes_empty arr r lo hi (by omega)]
    omega
  | succ n ih =>
    intro lo hi h
    by_cases hle : hi ≤ lo
    · rw [bsearchProbes_empty arr r lo hi hle]
      omega
    · unfold bsearchProbes
      rw [if_neg hle]
      by_cases hcmp : r < arr.getD ((lo + hi) / 2) 0
      · rw [if_pos hcmp]
        by_cases hempty : (lo + hi) / 2 ≤ lo
        · rw [bsearchProbes_empty arr r lo ((lo + hi) / 2) hempty]
          omega
        · have hsub : bsearchProbes arr r lo ((lo + hi) / 2) ≤
              Nat.log2 ((lo + hi) / 2 - lo) + 1 := ih lo ((lo + hi) / 2) (by omega)
          have h2 : 2 ≤ hi - lo := by omega
          have hmono : Nat.log2 ((lo + hi) / 2 - lo) ≤
              Nat.log2 ((hi - lo) / 2) := log2_mono _ _ (by omega)
          have heq := log2_half_succ (hi - lo) h2
          omega
      · rw [if_neg hcmp]
        by_cases hempty : hi ≤ (lo + hi) / 2 + 1
        · rw [bsearchProbes_empty arr r ((lo + hi) / 2 + 1) hi hempty]
          omega
        · have hsub : bsearchProbes arr r ((lo + hi) / 2 + 1) hi ≤
              Nat.log2 (hi - ((lo + hi) / 2 + 1)) + 1 :=
            ih ((lo + hi) / 2 + 1) hi (by omega)
          have h2 : 2 ≤ hi - lo := by omega
          have hmono : Nat.log2 (hi - ((lo + hi) / 2 + 1)) ≤
              Nat.log2 ((hi - lo) / 2) := log2_mono _ _ (by omega)
          have heq := log2_half_succ (hi - lo) h2
          omega

/-- C9: the sampler's selection cost is sub-linear in the sum of the
weights: the one-time cumulative-sum array has exactly one entry per
variant (its length never depends on the weights' magnitudes), and each
selection performs at most `log2 (variant count) + 1` boundary
comparisons, again independent of weight magnitude. -/
theorem sampler_cost (ws : List Nat) (r : Nat) :
    (cumulative 0 ws).length = ws.length ∧
    bsearchProbes (cumulative 0 ws) r 0 ws.length ≤
      Nat.log2 ws.length + 1 := by
  refine ⟨cumulative_length 0 ws, ?_⟩
  have h := bsearchProbes_le (cumulative 0 ws) r ws.length 0 ws.length (by omega)
  simpa using h

end Cleaver
